import Mathlib

/-!
Shallow embedding of `src/app.py` of the Chatbot-using-Gemini repository.

The file models the two components the spec describes:
the File Extractor (`process_uploaded_file`) and the Conversation
Orchestrator (the chat-input block of `app.py`), together with the
session state (`chat_history`, `file_context`) they act on.  External
parsing libraries (PIL, pypdf, python-docx, python-pptx, openpyxl) are
modelled by the structured data they hand back to `app.py`; the remote
model call is modelled by an `Outcome` (the reply text, or the raised
error's text).
-/

namespace Chatbot

/-- Content stored as pending file context: either a decoded image handle
(PIL `Image` object, abstracted as an identifier) or extracted text. -/
inductive Content where
  | image (handle : Nat)
  | text (s : String)
deriving DecidableEq

/-- Python truthiness of a content value: a PIL image object is truthy;
a string is truthy iff it is nonempty. -/
def contentTruthy : Content → Bool
  | Content.image _ => true
  | Content.text s => s != ""

/-- Python truthiness of `st.session_state.file_context`
(`None` is falsy), the test at line 133 of `app.py`. -/
def ctxTruthy : Option Content → Bool
  | none => false
  | some c => contentTruthy c

/-- Role of a transcript entry (`message["role"]` in `app.py`). -/
inductive Role where
  | user
  | assistant
deriving DecidableEq

/-- One entry of `st.session_state.chat_history`: a dict with keys
`role`, `content` and (on user turns) `image`; an absent `image` key is
modelled as `none`. -/
structure Message where
  role : Role
  content : String
  image : Option Nat := none
deriving DecidableEq

/-- The session state `app.py` mutates across a turn. -/
structure State where
  chat_history : List Message
  file_context : Option Content
deriving DecidableEq

/-- The strict system instruction of `app.py` line 123 (always used). -/
def system_prompt : String :=
  "You are an expert assistant. Your task is to answer the user's question based ONLY on the provided context and conversation history. Do not use any external knowledge. If the answer is not found in the context, you must state: 'I don't know, as the answer is not in the provided information.'"

/-- One element of `content_to_send`: a string, or the pending image
object itself (when an image was uploaded, `st.session_state.file_context`
is a PIL image and is appended as-is at line 135). -/
inductive Part where
  | str (s : String)
  | img (handle : Nat)
deriving DecidableEq

/-- The pending context value as it is appended to `content_to_send`. -/
def partOfContent : Content → Part
  | Content.image h => Part.img h
  | Content.text s => Part.str s

/-- Role string sent to the API (line 128 of `app.py`):
`"model" if msg["role"] == "assistant" else "user"`. -/
def roleToGemini : Role → String
  | Role.assistant => "model"
  | Role.user => "user"

/-- One entry of `gemini_history` (line 129): the role string and the
text content; attached images are not replayed. -/
def msgToGemini (m : Message) : String × String :=
  (roleToGemini m.role, m.content)

/-- What one turn sends to the remote model: `history=gemini_history`
passed to `model.start_chat`, and `content_to_send` passed to
`chat.send_message`. -/
structure Request where
  history : List (String × String)
  content_to_send : List Part
deriving DecidableEq

/-- Outcome of `chat.send_message`: a reply text, or a raised exception
with error text `e`. -/
inductive Outcome where
  | success (reply : String)
  | failure (err : String)
deriving DecidableEq

/-- The chat-input block of `app.py` (lines 107-154) for one user turn:
appends the user message (attaching a pending image for display), builds
`gemini_history` from the whole updated `chat_history`, selects the
context parts and clears `file_context` when it is truthy, assembles
`content_to_send`, and appends the assistant reply (the response text on
success, the `"Sorry, an error occurred: "` message on failure).
Returns the request sent to the model and the session state after the
turn. -/
def runTurn (st : State) (user_input : String) (outcome : Outcome) :
    Request × State :=
  let user_message_to_display : Message :=
    { role := Role.user
      content := user_input
      image := match st.file_context with
        | some (Content.image h) => some h
        | _ => none }
  let history1 := st.chat_history ++ [user_message_to_display]
  let gemini_history := history1.map msgToGemini
  let ctxStep : List Part × Option Content :=
    match st.file_context with
    | some c =>
        if contentTruthy c then
          ([Part.str "CONTEXT FROM UPLOADED FILE:", partOfContent c], none)
        else
          ([], some c)
    | none => ([], none)
  let content_to_send :=
    Part.str system_prompt ::
      (ctxStep.1 ++ [Part.str "USER'S CURRENT QUESTION:", Part.str user_input])
  let bot_reply :=
    match outcome with
    | Outcome.success r => r
    | Outcome.failure e => "Sorry, an error occurred: " ++ e
  let history2 :=
    history1 ++ [{ role := Role.assistant, content := bot_reply, image := none }]
  ({ history := gemini_history, content_to_send := content_to_send },
   { chat_history := history2, file_context := ctxStep.2 })

/-- A sequence of orchestrated turns: each element is the user input and
the remote call's outcome for that turn. -/
def runTurns (st : State) (turns : List (String × Outcome)) : State :=
  match turns with
  | [] => st
  | t :: rest => runTurns (runTurn st t.1 t.2).2 rest

/-- What the parsing libraries hand back to `process_uploaded_file` for
an uploaded blob: a decoded image, per-page texts of a pdf
(`page.extract_text()` may be `None`), the paragraph texts of a docx,
the shapes of each slide of a pptx (`none` = the shape has no `text`
attribute), the sheets of a xlsx workbook (each cell already rendered by
`str`, `none` = an empty `None` cell), or a blob the invoked parser
raises on. -/
inductive FileData where
  | imageData (handle : Nat)
  | pdfData (pages : List (Option String))
  | docxData (paragraphs : List String)
  | pptxData (slides : List (List (Option String)))
  | xlsxData (sheets : List (String × List (List (Option String))))
  | corruptData (err : String)
deriving DecidableEq

/-- Python `str.lower()` on an extension: lowercase every character. -/
def strLower (s : String) : String :=
  String.mk (s.data.map Char.toLower)

/-- Index of the last occurrence of `c`, as `str.rfind` computes it. -/
def lastIdxOf (c : Char) : List Char → Option Nat
  | [] => none
  | x :: xs =>
      match lastIdxOf c xs with
      | some i => some (i + 1)
      | none => if x == c then some 0 else none

/-- The extension part of `os.path.splitext(name)[1]` (posixpath): the
suffix from the last dot, provided that dot lies after the last path
separator and some non-dot character of the basename precedes it. -/
def splitextExt (name : String) : String :=
  let p := name.data
  match lastIdxOf '.' p with
  | none => ""
  | some d =>
      let fi : Nat :=
        match lastIdxOf '/' p with
        | some s2 => s2 + 1
        | none => 0
      let dotAfterSep : Bool :=
        match lastIdxOf '/' p with
        | some s2 => decide (s2 < d)
        | none => true
      if dotAfterSep then
        if ((p.drop fi).take (d - fi)).any (fun ch => ch != '.') then
          String.mk (p.drop d)
        else ""
      else ""

/-- Pdf branch (lines 37-41): concatenate `page.extract_text() or ""`
over the pages, in page order. -/
def pdfText (pages : List (Option String)) : String :=
  pages.foldl (fun acc p => acc ++ p.getD "") ""

/-- Docx branch (lines 42-44): paragraph texts joined with newlines. -/
def docxText (paragraphs : List String) : String :=
  String.intercalate "\n" paragraphs

/-- Pptx branch (lines 45-52): for every slide in order and every shape
on it in order, append the shape's text and a newline when the shape
has a `text` attribute. -/
def pptxText (slides : List (List (Option String))) : String :=
  slides.foldl
    (fun acc shapes =>
      shapes.foldl
        (fun a shape =>
          match shape with
          | some t => a ++ t ++ "\n"
          | none => a)
        acc)
    ""

/-- One xlsx row (line 60): cell renderings joined with `" | "` (an
empty `None` cell rendered as `""`), then a newline. -/
def xlsxRowText (row : List (Option String)) : String :=
  String.intercalate " | " (row.map (fun cell => cell.getD "")) ++ "\n"

/-- Xlsx branch (lines 53-61): for every sheet in workbook order, a
header line naming the sheet, then every row's text. -/
def xlsxText (sheets : List (String × List (List (Option String)))) : String :=
  sheets.foldl
    (fun acc sheet =>
      sheet.2.foldl (fun a row => a ++ xlsxRowText row)
        (acc ++ "--- Sheet: " ++ sheet.1 ++ " ---\n"))
    ""

/-- The body of the `try` block of `process_uploaded_file` (lines
33-61): dispatch on the lowercased extension; `Except.error` models an
exception raised by the invoked parser (a corrupt blob, or a blob the
extension's parser cannot read).  An extension outside the dispatch
table falls through without raising, yielding `Except.ok none`. -/
def rawExtract (file_extension : String) (data : FileData) :
    Except String (Option Content) :=
  if file_extension == ".jpg" || file_extension == ".jpeg" ||
      file_extension == ".png" then
    match data with
    | FileData.imageData h => Except.ok (some (Content.image h))
    | FileData.corruptData e => Except.error e
    | _ => Except.error "cannot identify image file"
  else if file_extension == ".pdf" then
    match data with
    | FileData.pdfData pages => Except.ok (some (Content.text (pdfText pages)))
    | FileData.corruptData e => Except.error e
    | _ => Except.error "invalid pdf data"
  else if file_extension == ".docx" then
    match data with
    | FileData.docxData paragraphs =>
        Except.ok (some (Content.text (docxText paragraphs)))
    | FileData.corruptData e => Except.error e
    | _ => Except.error "invalid docx data"
  else if file_extension == ".pptx" then
    match data with
    | FileData.pptxData slides =>
        Except.ok (some (Content.text (pptxText slides)))
    | FileData.corruptData e => Except.error e
    | _ => Except.error "invalid pptx data"
  else if file_extension == ".xlsx" then
    match data with
    | FileData.xlsxData sheets =>
        Except.ok (some (Content.text (xlsxText sheets)))
    | FileData.corruptData e => Except.error e
    | _ => Except.error "invalid xlsx data"
  else
    Except.ok none

/-- `process_uploaded_file` (lines 27-65): compute the lowercased
extension, run the dispatch; an exception is caught (`st.error` shown)
and `None` returned; an unmatched extension also returns `None`. -/
def process_uploaded_file (name : String) (data : FileData) : Option Content :=
  let file_extension := strLower (splitextExt name)
  match rawExtract file_extension data with
  | Except.ok c => c
  | Except.error _ => none

/-- Rendering of one xlsx sheet as the spec's format contract words it:
one header line naming the sheet, then one line per row. -/
def xlsxSheetSpec (name2 : String) (rows : List (List (Option String))) :
    String :=
  "--- Sheet: " ++ name2 ++ " ---\n" ++ String.join (rows.map xlsxRowText)

/-- Xlsx extraction as the spec's format contract words it: the
concatenation of the sheet renderings in workbook order. -/
def xlsxSpecText (sheets : List (String × List (List (Option String)))) :
    String :=
  String.join (sheets.map (fun sheet => xlsxSheetSpec sheet.1 sheet.2))

/-- One pptx shape's contribution as the spec words it: its text and a
newline when it exposes text, nothing otherwise. -/
def pptxShapeSpec : Option String → String
  | some t => t ++ "\n"
  | none => ""

/-- Pptx extraction as the spec's format contract words it: the
concatenation over slides, in order, of each slide's shape
contributions, in order. -/
def pptxSpecText (slides : List (List (Option String))) : String :=
  String.join (slides.map (fun shapes => String.join (shapes.map pptxShapeSpec)))

/-! ## Helper lemmas -/

theorem string_join_eq_foldl (l : List String) :
    String.join l = l.foldl (fun a b => a ++ b) "" :=
  rfl

theorem string_foldl_append_shift :
    ∀ (l : List String) (acc : String),
      l.foldl (fun a b => a ++ b) acc = acc ++ l.foldl (fun a b => a ++ b) "" := by
  intro l
  induction l with
  | nil => intro acc; exact (String.append_empty acc).symm
  | cons x xs ih =>
      intro acc
      rw [List.foldl_cons, List.foldl_cons, ih (acc ++ x), ih ("" ++ x),
        String.empty_append, String.append_assoc]

theorem string_join_cons (s : String) (l : List String) :
    String.join (s :: l) = s ++ String.join l := by
  rw [string_join_eq_foldl, string_join_eq_foldl, List.foldl_cons,
    string_foldl_append_shift, String.empty_append]

theorem foldl_append_eq_join {α : Type} (f : α → String) :
    ∀ (l : List α) (acc : String),
      l.foldl (fun a x => a ++ f x) acc = acc ++ String.join (l.map f) := by
  intro l
  induction l with
  | nil => intro acc; exact (String.append_empty acc).symm
  | cons x xs ih =>
      intro acc
      rw [List.foldl_cons, ih (acc ++ f x), List.map_cons, string_join_cons,
        String.append_assoc]

theorem xlsxText_eq_spec :
    ∀ (sheets : List (String × List (List (Option String)))) (acc : String),
      sheets.foldl
          (fun acc sheet =>
            sheet.2.foldl (fun a row => a ++ xlsxRowText row)
              (acc ++ "--- Sheet: " ++ sheet.1 ++ " ---\n"))
          acc
        = acc ++ xlsxSpecText sheets := by
  intro sheets
  induction sheets with
  | nil => intro acc; exact (String.append_empty acc).symm
  | cons s rest ih =>
      intro acc
      rw [List.foldl_cons, ih, foldl_append_eq_join]
      simp [xlsxSpecText, xlsxSheetSpec, string_join_cons, String.append_assoc]

theorem pptx_inner_foldl :
    ∀ (shapes : List (Option String)) (acc : String),
      shapes.foldl
          (fun a shape =>
            match shape with
            | some t => a ++ t ++ "\n"
            | none => a)
          acc
        = acc ++ String.join (shapes.map pptxShapeSpec) := by
  intro shapes
  induction shapes with
  | nil => intro acc; exact (String.append_empty acc).symm
  | cons sh rest ih =>
      intro acc
      cases sh with
      | some t =>
          rw [List.foldl_cons, ih]
          simp [pptxShapeSpec, string_join_cons, String.append_assoc]
      | none =>
          rw [List.foldl_cons, ih]
          simp [pptxShapeSpec, string_join_cons, String.empty_append]

theorem pptxText_eq_spec :
    ∀ (slides : List (List (Option String))) (acc : String),
      slides.foldl
          (fun acc shapes =>
            shapes.foldl
              (fun a shape =>
                match shape with
                | some t => a ++ t ++ "\n"
                | none => a)
              acc)
          acc
        = acc ++ pptxSpecText slides := by
  intro slides
  induction slides with
  | nil => intro acc; exact (String.append_empty acc).symm
  | cons s rest ih =>
      intro acc
      rw [List.foldl_cons, ih, pptx_inner_foldl]
      simp [pptxSpecText, string_join_cons, String.append_assoc]

/-- The pending-context step of a turn: `file_context` afterwards is
`none` exactly when it was truthy (the line-133 test), else unchanged. -/
theorem runTurn_file_context_after (st : State) (user_input : String)
    (o : Outcome) :
    (runTurn st user_input o).2.file_context
      = if ctxTruthy st.file_context then none else st.file_context := by
  cases hfc : st.file_context with
  | none => simp [runTurn, hfc, ctxTruthy]
  | some c => cases hct : contentTruthy c <;> simp [runTurn, hfc, ctxTruthy, hct]

/-- Roles appended by one turn: a user entry then an assistant entry. -/
theorem runTurn_roles (st : State) (user_input : String) (o : Outcome) :
    ((runTurn st user_input o).2.chat_history).map Message.role
      = st.chat_history.map Message.role ++ [Role.user, Role.assistant] := by
  simp [runTurn]

/-- The role pattern of `n` completed turns: user, assistant, repeated. -/
def roleBlock : Nat → List Role
  | 0 => []
  | Nat.succ n => Role.user :: Role.assistant :: roleBlock n

theorem runTurns_roles :
    ∀ (turns : List (String × Outcome)) (st : State),
      ((runTurns st turns).chat_history).map Message.role
        = st.chat_history.map Message.role ++ roleBlock turns.length := by
  intro turns
  induction turns with
  | nil => intro st; simp [runTurns, roleBlock]
  | cons t rest ih =>
      intro st
      show ((runTurns (runTurn st t.1 t.2).2 rest).chat_history).map Message.role = _
      rw [ih, runTurn_roles]
      simp [roleBlock, List.append_assoc]

theorem roleBlock_get :
    ∀ (n i : Nat) (h : i < (roleBlock n).length),
      (roleBlock n).get ⟨i, h⟩ = if i % 2 = 0 then Role.user else Role.assistant := by
  intro n
  induction n with
  | zero => intro i h; simp [roleBlock] at h
  | succ n ih =>
      intro i h
      match i with
      | 0 => simp [roleBlock]
      | 1 => simp [roleBlock]
      | Nat.succ (Nat.succ j) =>
          have h' : j < (roleBlock n).length := by
            simp [roleBlock] at h
            omega
          have hstep : (roleBlock (Nat.succ n)).get ⟨j + 2, h⟩
              = (roleBlock n).get ⟨j, h'⟩ := rfl
          rw [hstep, ih j h']
          have hmod : (j + 2) % 2 = j % 2 := Nat.add_mod_right j 2
          rw [hmod]

theorem get_map_role :
    ∀ (l : List Message) (i : Nat) (h : i < l.length)
      (h2 : i < (l.map Message.role).length),
      (l.map Message.role).get ⟨i, h2⟩ = (l.get ⟨i, h⟩).role := by
  intro l
  induction l with
  | nil => intro i h h2; simp at h
  | cons m rest ih =>
      intro i h h2
      match i with
      | 0 => rfl
      | Nat.succ j =>
          exact ih j (Nat.lt_of_succ_lt_succ h) (by simpa using Nat.lt_of_succ_lt_succ h2)

/-! ## Claim theorems -/

/-- C1 (amended): the conversation history supplied to the remote model
consists of all Transcript turns including the user turn just appended
for this input — each prior turn mapped by `msgToGemini` (assistant to
role "model", user to role "user", text content only, images not
resent), followed by the pair ("user", user text) for the appended
turn. -/
theorem gemini_history_includes_appended_turn (st : State)
    (user_input : String) (o : Outcome) :
    (runTurn st user_input o).1.history
      = st.chat_history.map msgToGemini ++ [("user", user_input)] := by
  simp [runTurn, msgToGemini, roleToGemini]

/-- C1 counterexample: the claim that the history consists of the prior
Transcript turns excluding the turn just appended (role-mapped, text
only) is false: on the empty transcript the history sent is not empty —
it already holds the just-appended user turn. -/
theorem gemini_history_prior_only_counterexample :
    ¬ (∀ (st : State) (user_input : String) (o : Outcome),
        (runTurn st user_input o).1.history
          = st.chat_history.map msgToGemini) := by
  intro hclaim
  exact absurd
    (hclaim { chat_history := [], file_context := none } "hi"
      (Outcome.success "ok"))
    (by decide)

/-- C2: when the pending file context is present (truthy) at the start
of an orchestrated turn, it is cleared to `none` by that turn, on the
success path and on the failure path alike, so a subsequent turn with no
new upload sees absent context. -/
theorem file_context_consumed_once (st : State) (user_input : String)
    (o : Outcome) (h : ctxTruthy st.file_context = true) :
    (runTurn st user_input o).2.file_context = none := by
  rw [runTurn_file_context_after, h]
  rfl

/-- C2 witness: a concrete turn with pending text context ends with
absent context. -/
theorem file_context_consumed_once_witness :
    (runTurn { chat_history := [], file_context := some (Content.text "doc") }
      "q" (Outcome.success "r")).2.file_context = none :=
  file_context_consumed_once
    { chat_history := [], file_context := some (Content.text "doc") } "q"
    (Outcome.success "r") (by decide)

/-- C3: the outgoing request content is exactly the ordered list
[system instruction, context-header label, pending context payload,
question label, user text] when pending context is present (truthy),
and [system instruction, question label, user text] when it is
absent. -/
theorem content_to_send_structure (st : State) (user_input : String)
    (o : Outcome) :
    (ctxTruthy st.file_context = true →
      ∃ c, st.file_context = some c ∧
        (runTurn st user_input o).1.content_to_send
          = [Part.str system_prompt, Part.str "CONTEXT FROM UPLOADED FILE:",
             partOfContent c, Part.str "USER'S CURRENT QUESTION:",
             Part.str user_input])
    ∧ (ctxTruthy st.file_context = false →
      (runTurn st user_input o).1.content_to_send
        = [Part.str system_prompt, Part.str "USER'S CURRENT QUESTION:",
           Part.str user_input]) := by
  constructor
  · intro h
    cases hfc : st.file_context with
    | none => rw [hfc] at h; simp [ctxTruthy] at h
    | some c =>
        rw [hfc] at h
        simp only [ctxTruthy] at h
        exact ⟨c, rfl, by simp [runTurn, hfc, h]⟩
  · intro h
    cases hfc : st.file_context with
    | none => simp [runTurn, hfc]
    | some c =>
        rw [hfc] at h
        simp only [ctxTruthy] at h
        simp [runTurn, hfc, h]

/-- C3 witness: with pending text context "doc" the request content is
the five-element list; the hypothesis of the first branch is discharged
at this concrete input. -/
theorem content_to_send_structure_witness :
    (runTurn { chat_history := [], file_context := some (Content.text "doc") }
      "q" (Outcome.success "r")).1.content_to_send
      = [Part.str system_prompt, Part.str "CONTEXT FROM UPLOADED FILE:",
         Part.str "doc", Part.str "USER'S CURRENT QUESTION:", Part.str "q"] := by
  obtain ⟨c, hc, hcontent⟩ :=
    (content_to_send_structure
      { chat_history := [], file_context := some (Content.text "doc") } "q"
      (Outcome.success "r")).1 (by decide)
  cases hc
  simpa [partOfContent] using hcontent

/-- C4: after any number of completed orchestrated turns starting from
an empty Transcript (whatever the initial pending context and whatever
mix of success and failure outcomes), the Transcript entry at every even
index has role user and at every odd index role assistant. -/
theorem transcript_roles_alternate (turns : List (String × Outcome))
    (fc : Option Content) (i : Nat)
    (h : i < ((runTurns { chat_history := [], file_context := fc }
        turns).chat_history).length) :
    (((runTurns { chat_history := [], file_context := fc }
        turns).chat_history).get ⟨i, h⟩).role
      = if i % 2 = 0 then Role.user else Role.assistant := by
  have hr := runTurns_roles turns { chat_history := [], file_context := fc }
  simp only [List.map_nil, List.nil_append] at hr
  have h2 : i < (((runTurns { chat_history := [], file_context := fc }
      turns).chat_history).map Message.role).length := by
    simpa using h
  have h3 : i < (roleBlock turns.length).length := by
    rw [← hr]; exact h2
  have hget := get_map_role
    ((runTurns { chat_history := [], file_context := fc } turns).chat_history)
    i h h2
  rw [← hget]
  have : ((runTurns { chat_history := [], file_context := fc }
      turns).chat_history).map Message.role = roleBlock turns.length := hr
  rw [List.get_of_eq this, roleBlock_get]

/-- C4 witness: after two concrete turns (one success, one failure) the
entry at index 3 is an assistant turn. -/
theorem transcript_roles_alternate_witness :
    (((runTurns { chat_history := [], file_context := (none : Option Content) }
        [("a", Outcome.success "x"), ("b", Outcome.failure "y")]).chat_history).get
      ⟨3, by decide⟩).role = if 3 % 2 = 0 then Role.user else Role.assistant :=
  transcript_roles_alternate
    [("a", Outcome.success "x"), ("b", Outcome.failure "y")] none 3 (by decide)

/-- C5: when the remote call raises with error text `e`, the turn
returns normally (the embedding's `runTurn` is total — nothing is
propagated), the Transcript's last entry is an assistant Turn whose
content contains the error text (it is a fixed message with `e`
appended), and a truthy pending file context is still cleared. -/
theorem failure_appends_error_turn (st : State) (user_input e : String) :
    ((runTurn st user_input (Outcome.failure e)).2.chat_history).getLast?
        = some { role := Role.assistant,
                 content := "Sorry, an error occurred: " ++ e, image := none }
      ∧ (∃ s, "Sorry, an error occurred: " ++ e = s ++ e)
      ∧ (ctxTruthy st.file_context = true →
          (runTurn st user_input (Outcome.failure e)).2.file_context = none) := by
  refine ⟨?_, ⟨"Sorry, an error occurred: ", rfl⟩, ?_⟩
  · exact List.getLast?_concat _
  · intro h
    rw [runTurn_file_context_after, h]
    rfl

/-- C5 witness: a concrete failing turn with pending context ends with
the error turn last and the context cleared. -/
theorem failure_appends_error_turn_witness :
    ((runTurn { chat_history := [], file_context := some (Content.text "doc") }
        "q" (Outcome.failure "boom")).2.chat_history).getLast?
        = some { role := Role.assistant,
                 content := "Sorry, an error occurred: " ++ "boom", image := none }
      ∧ (∃ s, "Sorry, an error occurred: " ++ "boom" = s ++ "boom")
      ∧ (runTurn { chat_history := [], file_context := some (Content.text "doc") }
          "q" (Outcome.failure "boom")).2.file_context = none := by
  have h := failure_appends_error_turn
    { chat_history := [], file_context := some (Content.text "doc") } "q" "boom"
  exact ⟨h.1, h.2.1, h.2.2 (by decide)⟩

/-- C6 counterexample: instruction selection does not follow Variant B.
With pending context absent the constructed request still contains the
strict answer-only-from-the-document instruction (there is no general
conversational instruction in the code), so "strict is present iff
pending context is present" fails at this concrete input. -/
theorem variant_b_selection_counterexample :
    Part.str system_prompt
        ∈ (runTurn { chat_history := [], file_context := none } "hi"
            (Outcome.success "ok")).1.content_to_send
      ∧ ctxTruthy (none : Option Content) = false := by
  exact ⟨List.mem_cons_self _ _, rfl⟩

/-- C6 (amended): instruction selection follows Variant A, not
Variant B: for every orchestrated user turn the constructed request
starts with the one strict answer-only instruction, whether pending
context is present or absent; the selection is trivially
deterministic. -/
theorem system_instruction_always_strict (st : State) (user_input : String)
    (o : Outcome) :
    (runTurn st user_input o).1.content_to_send.head?
      = some (Part.str system_prompt) :=
  rfl

/-- C7: for an uploaded file whose lowercased filename suffix is not one
of the seven supported extensions, `process_uploaded_file` returns
absent content, and the dispatch raises no exception at all (the
`Except` result is `ok none`, not `error`). -/
theorem unsupported_extension_yields_none (fname : String) (data : FileData)
    (h : strLower (splitextExt fname) ∉
      [".jpg", ".jpeg", ".png", ".pdf", ".docx", ".pptx", ".xlsx"]) :
    process_uploaded_file fname data = none
      ∧ rawExtract (strLower (splitextExt fname)) data = Except.ok none := by
  simp only [List.mem_cons, List.mem_singleton, not_or] at h
  obtain ⟨h1, h2, h3, h4, h5, h6, h7⟩ := h
  constructor
  · simp [process_uploaded_file, rawExtract, h1, h2, h3, h4, h5, h6, h7]
  · simp [rawExtract, h1, h2, h3, h4, h5, h6, h7]

/-- C7 witness: a `.txt` upload yields absent content without raising. -/
theorem unsupported_extension_yields_none_witness :
    process_uploaded_file "notes.txt" (FileData.docxData ["hello"]) = none
      ∧ rawExtract (strLower (splitextExt "notes.txt"))
          (FileData.docxData ["hello"]) = Except.ok none :=
  unsupported_extension_yields_none "notes.txt" (FileData.docxData ["hello"])
    (by decide)

/-- C8: xlsx extraction emits, for each sheet in workbook order, one
header line naming the sheet then one line per row with cell values
joined by " | " and `None` cells rendered empty (the source's
accumulating fold equals the spec's per-sheet rendering), and the
workbook with one sheet "Sheet1" and rows [["a",1],["b",None]] yields
exactly "--- Sheet: Sheet1 ---\na | 1\nb | \n". -/
theorem xlsx_extraction_format :
    (∀ sheets, xlsxText sheets = xlsxSpecText sheets)
      ∧ process_uploaded_file "report.xlsx"
          (FileData.xlsxData [("Sheet1", [[some "a", some "1"], [some "b", none]])])
          = some (Content.text "--- Sheet: Sheet1 ---\na | 1\nb | \n") := by
  constructor
  · intro sheets
    unfold xlsxText
    rw [xlsxText_eq_spec, String.empty_append]
  · decide

/-- C9: pptx extraction is the concatenation, over slides in order and
shapes in order, of each text-bearing shape's text followed by a newline
(the source's accumulating fold equals the spec's per-shape rendering),
and the presentation with two one-shape slides "Hello" and "World"
yields exactly "Hello\nWorld\n". -/
theorem pptx_extraction_format :
    (∀ slides, pptxText slides = pptxSpecText slides)
      ∧ process_uploaded_file "deck.pptx"
          (FileData.pptxData [[some "Hello"], [some "World"]])
          = some (Content.text "Hello\nWorld\n") := by
  constructor
  · intro slides
    unfold pptxText
    rw [pptxText_eq_spec, String.empty_append]
  · decide

/-- C10: when the stored pending file context is the empty string, the
next turn's request contains neither the context-header label nor a
context payload (exactly the three-part list), and the context is not
cleared — it is still the empty string afterwards: the line-133 presence
test is Python truthiness, not a None check. -/
theorem empty_string_context_skipped_not_cleared (st : State)
    (user_input : String) (o : Outcome)
    (h : st.file_context = some (Content.text "")) :
    (runTurn st user_input o).1.content_to_send
        = [Part.str system_prompt, Part.str "USER'S CURRENT QUESTION:",
           Part.str user_input]
      ∧ (runTurn st user_input o).2.file_context = some (Content.text "") := by
  constructor
  · simp [runTurn, h, contentTruthy]
  · rw [runTurn_file_context_after, h]
    rfl

/-- C10 witness: a concrete turn whose stored context is the empty
string sends the three-part request and keeps the empty-string
context. -/
theorem empty_string_context_skipped_not_cleared_witness :
    (runTurn { chat_history := [], file_context := some (Content.text "") }
        "q" (Outcome.success "r")).1.content_to_send
        = [Part.str system_prompt, Part.str "USER'S CURRENT QUESTION:",
           Part.str "q"]
      ∧ (runTurn { chat_history := [], file_context := some (Content.text "") }
          "q" (Outcome.success "r")).2.file_context
          = some (Content.text "") :=
  empty_string_context_skipped_not_cleared
    { chat_history := [], file_context := some (Content.text "") } "q"
    (Outcome.success "r") rfl

end Chatbot
